import Mathlib

/-!
Verification of the guest-house management application.

The development shallowly embeds the logic of the repository:

* the CSV reconciliation matcher and its per-property aggregation
  (app/(dashboard)/bookingcom-check/page.tsx),
* the income aggregator (app/api/income/route.ts),
* the create-booking and update-booking operations
  (app/api/bookings/route.ts) and the stored-record schema
  (models/Booking.ts).

Monetary amounts are embedded as rationals; JavaScript strings are Lean
strings; optional/undefined fields are `Option`; a JavaScript `Set` of ids
is a list queried only through membership.
-/

/- ======================================================
   Substring containment (JavaScript String.prototype.includes)
====================================================== -/

/-- Boolean test that `p` is a leading segment of `l` (character lists). -/
def leadsChars : List Char → List Char → Bool
  | [], _ => true
  | _ :: _, [] => false
  | a :: as, b :: bs => a == b && leadsChars as bs

/-- Boolean substring containment on character lists: some tail of `l`
starts with `p`.  This is the semantics of JavaScript
String.prototype.includes applied to the underlying character sequences. -/
def containsChars : List Char → List Char → Bool
  | [], p => p.isEmpty
  | l@(_ :: t), p => leadsChars p l || containsChars t p

/-- Embedding of `s.includes(p)` from the reconciliation page. -/
def strIncludes (s p : String) : Bool :=
  containsChars s.data p.data

theorem leadsChars_iff (p l : List Char) :
    leadsChars p l = true ↔ ∃ post, l = p ++ post := by
  induction p generalizing l with
  | nil => simp [leadsChars]
  | cons a as ih =>
    cases l with
    | nil => simp [leadsChars]
    | cons b bs =>
      simp only [leadsChars, Bool.and_eq_true, beq_iff_eq, ih, List.cons_append,
        List.cons.injEq]
      constructor
      · rintro ⟨rfl, post, rfl⟩; exact ⟨post, rfl, rfl⟩
      · rintro ⟨post, rfl, rfl⟩; exact ⟨rfl, post, rfl⟩

theorem containsChars_iff (l p : List Char) :
    containsChars l p = true ↔ ∃ pre post, l = pre ++ p ++ post := by
  induction l with
  | nil =>
    simp only [containsChars, List.isEmpty_iff]
    constructor
    · rintro rfl; exact ⟨[], [], rfl⟩
    · rintro ⟨pre, post, h⟩
      rcases List.append_eq_nil.mp (List.append_eq_nil.mp h.symm).1 with ⟨-, h2⟩
      exact h2
  | cons a t ih =>
    simp only [containsChars, Bool.or_eq_true, leadsChars_iff, ih]
    constructor
    · rintro (⟨post, h⟩ | ⟨pre, post, h⟩)
      · exact ⟨[], post, by simp [h]⟩
      · exact ⟨a :: pre, post, by simp [h]⟩
    · rintro ⟨pre, post, h⟩
      cases pre with
      | nil => exact Or.inl ⟨post, by simpa using h⟩
      | cons x xs =>
        have ht : t = xs ++ p ++ post := by
          simpa using congrArg List.tail h
        exact Or.inr ⟨xs, post, ht⟩

/- ======================================================
   Data model of the reconciliation page
   (app/(dashboard)/bookingcom-check/page.tsx)
====================================================== -/

/-- Interface Property of the reconciliation page. -/
structure Property where
  id : String
  name : String
deriving DecidableEq, Repr

/-- Interface Booking of the reconciliation page: the JSON shape returned
by the by-checkout-range endpoint.  reservationId is optional (the page
reads it with optional chaining and the schema declares it optional);
propertyId is the populated property document or undefined. -/
structure Booking where
  id : String
  guestName : String
  reservationId : Option String
  propertyId : Option Property
  amount : ℚ
  expectedPayment : Option ℚ
  platform : String
deriving DecidableEq, Repr

/-- Interface CsvRow: one parsed ledger row. -/
structure CsvRow where
  reference : String
  guest : String
  net : ℚ
deriving DecidableEq, Repr

/-- Type Status: the output vocabulary of the matcher. -/
inductive Status where
  | OK
  | MISSING_IN_DB
  | MISSING_IN_CSV
  | AMOUNT_MISMATCH
  | DUPLICATE_DB_REFERENCE
  | MULTI_PROPERTY_REFERENCE
deriving DecidableEq, Repr

/-- Interface ReconciliationRow. -/
structure ReconciliationRow where
  property : String
  reference : String
  csvGuest : Option String
  dbGuests : List String
  dbRecords : List Booking
  csvNet : Option ℚ
  dbTotal : Option ℚ
  dbCount : Nat
  status : Status
deriving DecidableEq, Repr

/- ======================================================
   The matcher (rows useMemo, page.tsx lines 132-201)
====================================================== -/

/-- Embedding of the matching predicate b.reservationId?.includes(csv.reference):
undefined reservationId short-circuits to no match. -/
def bookingMatches (b : Booking) (reference : String) : Bool :=
  match b.reservationId with
  | some rid => strIncludes rid reference
  | none => false

/-- Embedding of b.propertyId?.name || "Unknown Property": the displayed
property label of a stored booking.  JavaScript || also replaces an empty
name by the fallback. -/
def propLabel (b : Booking) : String :=
  match b.propertyId with
  | some p => if p.name = "" then "Unknown Property" else p.name
  | none => "Unknown Property"

/-- Embedding of b.expectedPayment ?? b.amount: the stored amount the
matcher compares against the ledger net. -/
def cmpAmount (b : Booking) : ℚ :=
  match b.expectedPayment with
  | some e => e
  | none => b.amount

/-- Distinct property labels of the matched records: new Set(matched.map(...)).
A JavaScript Set in insertion order with duplicates removed is List.dedup
up to order; only its size and (when the size is one) its unique element
are consumed. -/
def matchedProps (matched : List Booking) : List String :=
  (matched.map propLabel).dedup

/-- Embedding of matched.reduce((s, b) => s + (b.expectedPayment ?? b.amount), 0). -/
def dbTotalOf (matched : List Booking) : ℚ :=
  matched.foldl (fun s b => s + cmpAmount b) 0

/-- Status classification of one ledger row with a non-empty match set
(page.tsx lines 165-169). -/
def classify (matched : List Booking) (net : ℚ) : Status :=
  if (matchedProps matched).length > 1 then .MULTI_PROPERTY_REFERENCE
  else if matched.length > 1 then .DUPLICATE_DB_REFERENCE
  else if |dbTotalOf matched - net| > (0.01 : ℚ) then .AMOUNT_MISMATCH
  else .OK

/-- The single ReconciliationRow pushed for one ledger row (page.tsx
lines 141-182): the MISSING_IN_DB row when nothing matches, otherwise the
classified row carrying the matched records. -/
def csvRowOutput (dbBookings : List Booking) (csv : CsvRow) : ReconciliationRow :=
  let matched := dbBookings.filter (fun b => bookingMatches b csv.reference)
  if matched.length = 0 then
    { property := "Unmatched CSV"
      reference := csv.reference
      csvGuest := some csv.guest
      csvNet := some csv.net
      dbGuests := []
      dbRecords := []
      dbTotal := none
      dbCount := 0
      status := .MISSING_IN_DB }
  else
    { property := if (matchedProps matched).length = 1
        then (matchedProps matched).headD "" else "⚠ Cross-Property Issue"
      reference := csv.reference
      csvGuest := some csv.guest
      csvNet := some csv.net
      dbGuests := matched.map (fun m => m.guestName)
      dbRecords := matched
      dbTotal := some (dbTotalOf matched)
      dbCount := matched.length
      status := classify matched csv.net }

/-- One iteration of the ledger loop: push the row for csv onto the output
and record the ids of the matched bookings in usedDbIds (a set queried only
through membership, embedded as a list). -/
def csvStep (dbBookings : List Booking) (acc : List ReconciliationRow × List String)
    (csv : CsvRow) : List ReconciliationRow × List String :=
  let matched := dbBookings.filter (fun b => bookingMatches b csv.reference)
  if matched.length = 0 then
    (acc.1 ++ [csvRowOutput dbBookings csv], acc.2)
  else
    (acc.1 ++ [csvRowOutput dbBookings csv], acc.2 ++ matched.map (fun b => b.id))

/-- The MISSING_IN_CSV row emitted for a stored booking never touched by
any ledger row (page.tsx lines 186-198). -/
def missingInCsvRow (b : Booking) : ReconciliationRow :=
  { property := propLabel b
    reference := b.reservationId.getD ""
    csvGuest := none
    dbGuests := [b.guestName]
    dbRecords := [b]
    csvNet := none
    dbTotal := some (cmpAmount b)
    dbCount := 1
    status := .MISSING_IN_CSV }

/-- The whole reconciliation pass (rows useMemo, page.tsx lines 132-201):
one pass over the ledger rows accumulating output rows and used ids, then
one pass over the stored bookings emitting MISSING_IN_CSV rows for those
whose id was never used. -/
def reconcile (dbBookings : List Booking) (csvRows : List CsvRow) :
    List ReconciliationRow :=
  let acc := csvRows.foldl (csvStep dbBookings) ([], [])
  acc.1 ++ (dbBookings.filter (fun b => !acc.2.contains b.id)).map missingInCsvRow

/- ======================================================
   Per-property aggregation (grouped useMemo, page.tsx lines 206-237)
====================================================== -/

/-- One group of the per-property aggregation. -/
structure GroupTotals where
  rows : List ReconciliationRow
  safeTotal : ℚ
  csvTotal : ℚ
  dbTotal : ℚ
deriving DecidableEq, Repr

/-- Embedding of r.csvNet || 0 and r.dbTotal || 0: over the rationals the
JavaScript || with a 0 fallback is exactly Option.getD 0. -/
def orZero (o : Option ℚ) : ℚ :=
  o.getD 0

/-- One iteration of the grouping loop restricted to the entry of key p:
push the row, add csvNet and dbTotal to the running totals, and add csvNet
to safeTotal only when the status is OK. -/
def groupStep (p : String) (g : GroupTotals) (r : ReconciliationRow) : GroupTotals :=
  if r.property = p then
    { rows := g.rows ++ [r]
      safeTotal := g.safeTotal + (if r.status = .OK then orZero r.csvNet else 0)
      csvTotal := g.csvTotal + orZero r.csvNet
      dbTotal := g.dbTotal + orZero r.dbTotal }
  else g

/-- The entry of the grouped record at key p.  The source builds a string
keyed record in one loop; pointwise, its entry at p is the fold of the
rows with property p starting from the all-zero entry. -/
def groupFor (rows : List ReconciliationRow) (p : String) : GroupTotals :=
  rows.foldl (groupStep p) { rows := [], safeTotal := 0, csvTotal := 0, dbTotal := 0 }

/-- The key set of the grouped record: the property labels occurring in
the output rows, first occurrence order. -/
def groupKeys (rows : List ReconciliationRow) : List String :=
  (rows.map (fun r => r.property)).dedup

/- ======================================================
   Income aggregator (app/api/income/route.ts lines 75-119)
====================================================== -/

/-- The fields of a fetched booking record the totals reduction reads.
The route already filtered the records to the window, the optional
property/platform filters and non-cancelled status. -/
structure IncomeRecord where
  platform : String
  paymentMethod : String
  amount : ℚ
deriving DecidableEq, Repr

/-- The totals accumulator of the income route. -/
structure Totals where
  booking : ℚ
  agoda : ℚ
  airbnb : ℚ
  expedia : ℚ
  directBank : ℚ
  directCash : ℚ
  netTotal : ℚ
deriving DecidableEq, Repr

/-- The all-zero totals the route starts from. -/
def zeroTotals : Totals :=
  { booking := 0, agoda := 0, airbnb := 0, expedia := 0
    directBank := 0, directCash := 0, netTotal := 0 }

/-- One iteration of the totals reduction (route.ts lines 85-106): add the
amount to netTotal, then switch on the platform; Direct splits further on
the payment method, with bank and cash the only recognised methods. -/
def addRecord (t : Totals) (b : IncomeRecord) : Totals :=
  let amount := b.amount
  let t := { t with netTotal := t.netTotal + amount }
  if b.platform = "Booking.com" then { t with booking := t.booking + amount }
  else if b.platform = "Agoda" then { t with agoda := t.agoda + amount }
  else if b.platform = "Airbnb" then { t with airbnb := t.airbnb + amount }
  else if b.platform = "Expedia" then { t with expedia := t.expedia + amount }
  else if b.platform = "Direct" then
    if b.paymentMethod = "bank" then { t with directBank := t.directBank + amount }
    else if b.paymentMethod = "cash" then { t with directCash := t.directCash + amount }
    else t
  else t

/-- The totals of the income route over the fetched records. -/
def computeTotals (records : List IncomeRecord) : Totals :=
  records.foldl addRecord zeroTotals

/- ======================================================
   Booking API (app/api/bookings/route.ts) and schema (models/Booking.ts)
====================================================== -/

/-- A persisted booking record, restricted to the fields the POST and
PATCH handlers read or write. -/
structure StoredRecord where
  guestName : String
  reservationId : String
  roomId : Option String
  platform : String
  paymentMethod : String
  amount : ℚ
  status : String
deriving DecidableEq, Repr

/-- The request body of the create-booking operation: the fields the
handler treats specially.  None models an absent field and some "" an
empty string, which JavaScript truthiness also treats as missing. -/
structure BookingInput where
  guestName : String
  reservationId : Option String
  roomId : Option String
  platform : String
  paymentMethod : String
  amount : ℚ
  status : Option String
deriving DecidableEq, Repr

/-- Embedding of the reservationId defaulting (route.ts lines 138-141):
keep a truthy supplied value, otherwise use the auto-generated reference
(modelled as a parameter, the source derives it from the clock and a
random number). -/
def resolveReservationId (supplied : Option String) (autoRef : String) : String :=
  match supplied with
  | some r => if r = "" then autoRef else r
  | none => autoRef

/-- Embedding of Booking.findOne({reservationId, status: {$ne: "cancel"}})
viewed as an existence check. -/
def hasActiveDuplicate (db : List StoredRecord) (rid : String) : Bool :=
  db.any (fun b => b.reservationId == rid && !(b.status == "cancel"))

/-- Outcome of the create-booking operation. -/
inductive PostResult where
  | conflict
  | created (b : StoredRecord)
deriving DecidableEq, Repr

/-- HTTP status code of the POST response: the conflict branch responds
409, the success branch responds with the created document (status 200). -/
def postHttpStatus : PostResult → Nat
  | .conflict => 409
  | .created _ => 200

/-- Embedding of the POST handler (route.ts lines 133-169): resolve the
reference, reject when an active record with the same reference exists,
otherwise create the record with status defaulting to booked. -/
def createBooking (db : List StoredRecord) (data : BookingInput) (autoRef : String) :
    PostResult × List StoredRecord :=
  let reservationId := resolveReservationId data.reservationId autoRef
  if hasActiveDuplicate db reservationId then
    (.conflict, db)
  else
    let booking : StoredRecord :=
      { guestName := data.guestName
        reservationId := reservationId
        roomId := data.roomId
        platform := data.platform
        paymentMethod := data.paymentMethod
        amount := data.amount
        status := match data.status with
          | some s => if s = "" then "booked" else s
          | none => "booked" }
    (.created booking, db ++ [booking])

/- ======================================================
   Structural lemmas about the matcher
====================================================== -/

/-- The used-id accumulator after the ledger loop. -/
def usedIds (dbBookings : List Booking) (csvRows : List CsvRow) : List String :=
  (csvRows.foldl (csvStep dbBookings) ([], [])).2

theorem csvStep_fst (db : List Booking) (acc : List ReconciliationRow × List String)
    (c : CsvRow) : (csvStep db acc c).1 = acc.1 ++ [csvRowOutput db c] := by
  simp only [csvStep]
  split <;> rfl

theorem csvStep_snd_mem (db : List Booking) (acc : List ReconciliationRow × List String)
    (c : CsvRow) (x : String) :
    x ∈ (csvStep db acc c).2 ↔
      x ∈ acc.2 ∨ ∃ b ∈ db, bookingMatches b c.reference = true ∧ b.id = x := by
  simp only [csvStep]
  split
  · next h =>
    have hnil : db.filter (fun b => bookingMatches b c.reference) = [] :=
      List.length_eq_zero.mp h
    simp only [iff_self_or]
    rintro ⟨b, hb, hm, rfl⟩
    have : b ∈ db.filter (fun b => bookingMatches b c.reference) :=
      List.mem_filter.mpr ⟨hb, hm⟩
    simp [hnil] at this
  · simp only [List.mem_append, List.mem_map, List.mem_filter]
    constructor
    · rintro (h | ⟨b, ⟨hb, hm⟩, rfl⟩)
      · exact Or.inl h
      · exact Or.inr ⟨b, hb, hm, rfl⟩
    · rintro (h | ⟨b, hb, hm, rfl⟩)
      · exact Or.inl h
      · exact Or.inr ⟨b, ⟨hb, hm⟩, rfl⟩

theorem foldl_csvStep_fst (db : List Booking) (rows : List CsvRow) :
    ∀ acc, (rows.foldl (csvStep db) acc).1 = acc.1 ++ rows.map (csvRowOutput db) := by
  induction rows with
  | nil => intro acc; simp
  | cons c cs ih =>
    intro acc
    simp only [List.foldl_cons, List.map_cons, ih, csvStep_fst, List.append_assoc,
      List.singleton_append]

theorem foldl_csvStep_snd_mem (db : List Booking) (rows : List CsvRow) :
    ∀ acc x, x ∈ (rows.foldl (csvStep db) acc).2 ↔
      x ∈ acc.2 ∨ ∃ b ∈ db, b.id = x ∧ ∃ c ∈ rows, bookingMatches b c.reference = true := by
  induction rows with
  | nil => intro acc x; simp
  | cons c cs ih =>
    intro acc x
    simp only [List.foldl_cons, ih, csvStep_snd_mem, List.mem_cons]
    constructor
    · rintro ((h | ⟨b, hb, hm, rfl⟩) | ⟨b, hb, rfl, c2, hc2, hm⟩)
      · exact Or.inl h
      · exact Or.inr ⟨b, hb, rfl, c, Or.inl rfl, hm⟩
      · exact Or.inr ⟨b, hb, rfl, c2, Or.inr hc2, hm⟩
    · rintro (h | ⟨b, hb, rfl, c2, (rfl | hc2), hm⟩)
      · exact Or.inl (Or.inl h)
      · exact Or.inl (Or.inr ⟨b, hb, hm, rfl⟩)
      · exact Or.inr ⟨b, hb, rfl, c2, hc2, hm⟩

theorem usedIds_mem (db : List Booking) (rows : List CsvRow) (x : String) :
    x ∈ usedIds db rows ↔
      ∃ b ∈ db, b.id = x ∧ ∃ c ∈ rows, bookingMatches b c.reference = true := by
  rw [usedIds, foldl_csvStep_snd_mem]
  simp

/-- The output of one reconciliation pass decomposed into the per-ledger
rows followed by the MISSING_IN_CSV rows of the untouched bookings. -/
theorem reconcile_eq (db : List Booking) (rows : List CsvRow) :
    reconcile db rows =
      rows.map (csvRowOutput db) ++
        (db.filter (fun b => !(usedIds db rows).contains b.id)).map missingInCsvRow := by
  rw [reconcile, foldl_csvStep_fst]
  rfl

/-- The first |rows| output rows are the per-ledger rows, in order. -/
theorem reconcile_take (db : List Booking) (rows : List CsvRow) :
    (reconcile db rows).take rows.length = rows.map (csvRowOutput db) := by
  rw [reconcile_eq]
  rw [show rows.length = (rows.map (csvRowOutput db)).length by simp]
  exact List.take_left _ _

theorem foldl_add_sum (f : Booking → ℚ) (l : List Booking) :
    ∀ a : ℚ, l.foldl (fun s b => s + f b) a = a + (l.map f).sum := by
  induction l with
  | nil => intro a; simp
  | cons b t ih => intro a; simp [ih, add_assoc]

theorem dbTotalOf_eq_sum (l : List Booking) :
    dbTotalOf l = (l.map cmpAmount).sum := by
  rw [dbTotalOf, foldl_add_sum]; ring

theorem all_eq_of_dedup_length_le_one {α : Type} [DecidableEq α] {l : List α}
    (h : l.dedup.length ≤ 1) : ∀ a ∈ l, ∀ b ∈ l, a = b := by
  intro a ha b hb
  have ha2 : a ∈ l.dedup := List.mem_dedup.mpr ha
  have hb2 : b ∈ l.dedup := List.mem_dedup.mpr hb
  cases hd : l.dedup with
  | nil => rw [hd] at ha2; exact absurd ha2 (List.not_mem_nil a)
  | cons x t =>
    cases t with
    | nil =>
      rw [hd] at ha2 hb2
      simp only [List.mem_singleton] at ha2 hb2
      rw [ha2, hb2]
    | cons y t2 => rw [hd] at h; simp at h

theorem dedup_length_le_one_of_all_eq {α : Type} [DecidableEq α] {l : List α}
    (h : ∀ a ∈ l, ∀ b ∈ l, a = b) : l.dedup.length ≤ 1 := by
  cases hd : l.dedup with
  | nil => simp
  | cons x t =>
    cases t with
    | nil => simp
    | cons y t2 =>
      exfalso
      have hnd := l.nodup_dedup
      rw [hd] at hnd
      have hxy : x ≠ y := by
        rcases List.nodup_cons.mp hnd with ⟨hx1, -⟩
        exact fun he => hx1 (he ▸ List.mem_cons_self y t2)
      have hx : x ∈ l :=
        List.mem_dedup.mp (by rw [hd]; exact List.mem_cons_self x (y :: t2))
      have hy : y ∈ l :=
        List.mem_dedup.mp
          (by rw [hd]; exact List.mem_cons_of_mem x (List.mem_cons_self y t2))
      exact hxy (h x hx y hy)

theorem one_lt_dedup_length_iff {α : Type} [DecidableEq α] (l : List α) :
    1 < l.dedup.length ↔ ∃ a ∈ l, ∃ b ∈ l, a ≠ b := by
  constructor
  · intro h
    by_contra hc
    push_neg at hc
    exact absurd (dedup_length_le_one_of_all_eq hc) (by omega)
  · rintro ⟨a, ha, b, hb, hab⟩
    by_contra hc
    push_neg at hc
    exact hab (all_eq_of_dedup_length_le_one (by omega) a ha b hb)

theorem matchedProps_singleton (b : Booking) :
    matchedProps [b] = [propLabel b] := by
  simp [matchedProps]

theorem dbTotalOf_singleton (b : Booking) : dbTotalOf [b] = cmpAmount b := by
  simp [dbTotalOf]

theorem classify_multi {matched : List Booking} {net : ℚ}
    (h : 1 < (matchedProps matched).length) :
    classify matched net = .MULTI_PROPERTY_REFERENCE := by
  simp [classify, h]

theorem classify_dup {matched : List Booking} {net : ℚ}
    (h1 : ¬ 1 < (matchedProps matched).length) (h2 : 1 < matched.length) :
    classify matched net = .DUPLICATE_DB_REFERENCE := by
  simp [classify, h1, h2]

theorem classify_singleton (b : Booking) (net : ℚ) :
    classify [b] net =
      if |cmpAmount b - net| > (0.01 : ℚ) then .AMOUNT_MISMATCH else .OK := by
  simp only [classify, matchedProps_singleton, dbTotalOf_singleton,
    List.length_singleton]
  norm_num

theorem csvRowOutput_of_empty {db : List Booking} {c : CsvRow}
    (h : db.filter (fun b => bookingMatches b c.reference) = []) :
    csvRowOutput db c =
      { property := "Unmatched CSV"
        reference := c.reference
        csvGuest := some c.guest
        csvNet := some c.net
        dbGuests := []
        dbRecords := []
        dbTotal := none
        dbCount := 0
        status := .MISSING_IN_DB } := by
  simp [csvRowOutput, h]

theorem csvRowOutput_of_ne {db : List Booking} {c : CsvRow}
    (h : db.filter (fun b => bookingMatches b c.reference) ≠ []) :
    csvRowOutput db c =
      (let matched := db.filter (fun b => bookingMatches b c.reference)
       { property := if (matchedProps matched).length = 1
           then (matchedProps matched).headD "" else "⚠ Cross-Property Issue"
         reference := c.reference
         csvGuest := some c.guest
         csvNet := some c.net
         dbGuests := matched.map (fun m => m.guestName)
         dbRecords := matched
         dbTotal := some (dbTotalOf matched)
         dbCount := matched.length
         status := classify matched c.net }) := by
  have h0 : ¬ (db.filter (fun b => bookingMatches b c.reference)).length = 0 :=
    fun he => h (List.length_eq_zero.mp he)
  simp [csvRowOutput, h0]

theorem csvRowOutput_status_ne_missing_csv (db : List Booking) (c : CsvRow) :
    (csvRowOutput db c).status ≠ .MISSING_IN_CSV := by
  by_cases h : db.filter (fun b => bookingMatches b c.reference) = []
  · rw [csvRowOutput_of_empty h]; simp
  · rw [csvRowOutput_of_ne h]
    simp only [classify]
    split_ifs <;> simp

theorem csvRowOutput_csvNet (db : List Booking) (c : CsvRow) :
    (csvRowOutput db c).csvNet = some c.net := by
  by_cases h : db.filter (fun b => bookingMatches b c.reference) = []
  · rw [csvRowOutput_of_empty h]
  · rw [csvRowOutput_of_ne h]

theorem foldl_groupStep_safeTotal (p : String) (rows : List ReconciliationRow) :
    ∀ g : GroupTotals, (rows.foldl (groupStep p) g).safeTotal =
      g.safeTotal +
        ((rows.filter (fun r => decide (r.property = p ∧ r.status = Status.OK))).map
          (fun r => orZero r.csvNet)).sum := by
  induction rows with
  | nil => intro g; simp
  | cons r rs ih =>
    intro g
    simp only [List.foldl_cons, ih, List.filter_cons]
    by_cases h1 : r.property = p
    · by_cases h2 : r.status = Status.OK
      · simp [groupStep, h1, h2, add_assoc]
      · simp [groupStep, h1, h2]
    · simp [groupStep, h1]

theorem groupFor_safeTotal (rows : List ReconciliationRow) (p : String) :
    (groupFor rows p).safeTotal =
      ((rows.filter (fun r => decide (r.property = p ∧ r.status = Status.OK))).map
        (fun r => orZero r.csvNet)).sum := by
  rw [groupFor, foldl_groupStep_safeTotal]
  simp

/-- The status enumeration declared by the stored-record schema
(models/Booking.ts lines 72-76). -/
def bookingStatusEnum : List String :=
  ["booked", "checkin", "checkout", "cancel"]

/-- Embedding of the PATCH handler actions (route.ts lines 186-205)
applied to the looked-up record: assign writes the room, checkin and
checkout overwrite the status; any other action updates nothing and the
handler responds with an undefined body (none).  findByIdAndUpdate runs
no schema validation by default, so the written status is stored as is. -/
def patchBooking (b : StoredRecord) (action : String) (roomId : Option String) :
    Option StoredRecord :=
  if action = "assign" then some { b with roomId := roomId }
  else if action = "checkin" then some { b with status := "checked_in" }
  else if action = "checkout" then some { b with status := "checked_out" }
  else none

/- ======================================================
   Example data for witnesses
====================================================== -/

def exProp1 : Property := { id := "p1", name := "Beach House" }

def exProp2 : Property := { id := "p2", name := "Hill House" }

def exB1 : Booking :=
  { id := "b1", guestName := "Alice", reservationId := some "BDC-1001-A"
    propertyId := some exProp1, amount := 150, expectedPayment := some 150
    platform := "Booking.com" }

def exB2 : Booking :=
  { id := "b2", guestName := "Bob", reservationId := some "BDC-2002"
    propertyId := some exProp2, amount := 90, expectedPayment := none
    platform := "Booking.com" }

def exDb : List Booking := [exB1, exB2]

def exCsv : CsvRow := { reference := "1001", guest := "Alice", net := 150 }

def exRows : List CsvRow := [exCsv]

theorem exMatched : exDb.filter (fun b => bookingMatches b exCsv.reference) = [exB1] := by
  decide

theorem exStatusOK : (csvRowOutput exDb exCsv).status = Status.OK := by
  have hne : exDb.filter (fun b => bookingMatches b exCsv.reference) ≠ [] := by
    rw [exMatched]
    simp
  rw [csvRowOutput_of_ne hne]
  simp only [exMatched, classify_singleton]
  norm_num [cmpAmount, exB1, exCsv]

theorem exMem : csvRowOutput exDb exCsv ∈ reconcile exDb exRows := by
  rw [reconcile_eq]
  exact List.mem_append_left _ (List.mem_map_of_mem _ (by simp [exRows]))

/- ======================================================
   Claim theorems
====================================================== -/

/-- C1: for stored bookings with distinct identifiers and ledger rows with
non-empty references, the matcher emits exactly one row per ledger row plus
exactly one row per stored booking matched by no ledger row, so the output
length is the number of ledger rows plus the number of unmatched stored
bookings and no row is dropped. -/
theorem reconcile_output_count (db : List Booking) (rows : List CsvRow)
    (href : ∀ c ∈ rows, c.reference ≠ "")
    (hid : (db.map (fun b => b.id)).Nodup) :
    (reconcile db rows).length =
      rows.length +
        (db.filter
          (fun b => !(rows.any (fun c => bookingMatches b c.reference)))).length := by
  rw [reconcile_eq, List.length_append, List.length_map, List.length_map]
  congr 2
  apply List.filter_congr
  intro b hb
  have hiff : ((usedIds db rows).contains b.id = true) ↔
      (rows.any (fun c => bookingMatches b c.reference) = true) := by
    rw [show ((usedIds db rows).contains b.id = true) ↔ b.id ∈ usedIds db rows from
      List.elem_iff]
    rw [usedIds_mem, List.any_eq_true]
    constructor
    · rintro ⟨b2, hb2, heq, c, hc, hm⟩
      have hbb : b2 = b := List.inj_on_of_nodup_map hid hb2 hb heq
      exact ⟨c, hc, hbb ▸ hm⟩
    · rintro ⟨c, hc, hm⟩
      exact ⟨b, hb, rfl, c, hc, hm⟩
  have heq : (usedIds db rows).contains b.id =
      rows.any (fun c => bookingMatches b c.reference) := by
    by_cases h1 : (usedIds db rows).contains b.id = true
    · rw [h1, (hiff.mp h1).symm]
    · have h2 : ¬ (rows.any (fun c => bookingMatches b c.reference) = true) :=
        fun ha => h1 (hiff.mpr ha)
      rw [Bool.not_eq_true] at h1 h2
      rw [h1, h2]
  rw [heq]

theorem reconcile_output_count_witness :
    (∀ c ∈ exRows, c.reference ≠ "") ∧ ((exDb.map (fun b => b.id)).Nodup) ∧
    (reconcile exDb exRows).length =
      exRows.length +
        (exDb.filter
          (fun b => !(exRows.any (fun c => bookingMatches b c.reference)))).length :=
  ⟨by decide, by decide, reconcile_output_count exDb exRows (by decide) (by decide)⟩

/-- C3: for every reconciliation output and every property group, safeTotal
is the sum of csvNet over exactly the OK rows of that group, and every OK
row carries a defined csvNet (so no other status contributes). -/
theorem groupFor_safeTotal_ok (db : List Booking) (rows : List CsvRow) (p : String) :
    (groupFor (reconcile db rows) p).safeTotal =
      (((reconcile db rows).filter
          (fun r => decide (r.property = p ∧ r.status = Status.OK))).map
        (fun r => orZero r.csvNet)).sum ∧
    ∀ r ∈ reconcile db rows, r.status = Status.OK → r.csvNet ≠ none := by
  refine ⟨groupFor_safeTotal _ _, ?_⟩
  intro r hr hok
  rw [reconcile_eq] at hr
  rcases List.mem_append.mp hr with h | h
  · rcases List.mem_map.mp h with ⟨c, hc, rfl⟩
    rw [csvRowOutput_csvNet]
    simp
  · rcases List.mem_map.mp h with ⟨b, hb, rfl⟩
    simp [missingInCsvRow] at hok

theorem groupFor_safeTotal_ok_witness :
    ((csvRowOutput exDb exCsv) ∈ reconcile exDb exRows) ∧
    (csvRowOutput exDb exCsv).status = Status.OK ∧
    (csvRowOutput exDb exCsv).csvNet ≠ none :=
  ⟨exMem, exStatusOK,
    (groupFor_safeTotal_ok exDb exRows "Beach House").2 _ exMem exStatusOK⟩

/-- C6: the matcher is a total function and every output row carries one of
the six declared statuses; there is no error branch in its output. -/
theorem reconcile_status_vocab (db : List Booking) (rows : List CsvRow) :
    ∀ r ∈ reconcile db rows,
      r.status = .OK ∨ r.status = .MISSING_IN_DB ∨ r.status = .MISSING_IN_CSV ∨
      r.status = .AMOUNT_MISMATCH ∨ r.status = .DUPLICATE_DB_REFERENCE ∨
      r.status = .MULTI_PROPERTY_REFERENCE := by
  intro r hr
  rcases hst : r.status <;> simp

theorem reconcile_status_vocab_witness :
    ((csvRowOutput exDb exCsv) ∈ reconcile exDb exRows) ∧
    ((csvRowOutput exDb exCsv).status = .OK ∨
      (csvRowOutput exDb exCsv).status = .MISSING_IN_DB ∨
      (csvRowOutput exDb exCsv).status = .MISSING_IN_CSV ∨
      (csvRowOutput exDb exCsv).status = .AMOUNT_MISMATCH ∨
      (csvRowOutput exDb exCsv).status = .DUPLICATE_DB_REFERENCE ∨
      (csvRowOutput exDb exCsv).status = .MULTI_PROPERTY_REFERENCE) :=
  ⟨exMem, reconcile_status_vocab exDb exRows _ exMem⟩

/-- C2: the status of the row produced for each ledger row follows the
precedence MISSING_IN_DB, MULTI_PROPERTY_REFERENCE (two matches with
different property labels), DUPLICATE_DB_REFERENCE (several matches, one
label), AMOUNT_MISMATCH (single match off by more than 0.01), OK; and a
single-match row is OK iff the compared amount is within 0.01 of the
ledger net.  The first conjunct places csvRowOutput as the per-ledger-row
output of the matcher. -/
theorem reconcile_status_cases (db : List Booking) (rows : List CsvRow) (c : CsvRow) :
    (reconcile db rows).take rows.length = rows.map (csvRowOutput db) ∧
    ((db.filter (fun b => bookingMatches b c.reference)) = [] →
       (csvRowOutput db c).status = .MISSING_IN_DB) ∧
    ((∃ b1 ∈ db.filter (fun b => bookingMatches b c.reference),
        ∃ b2 ∈ db.filter (fun b => bookingMatches b c.reference),
          propLabel b1 ≠ propLabel b2) →
       (csvRowOutput db c).status = .MULTI_PROPERTY_REFERENCE) ∧
    (1 < (db.filter (fun b => bookingMatches b c.reference)).length →
       (∀ b1 ∈ db.filter (fun b => bookingMatches b c.reference),
          ∀ b2 ∈ db.filter (fun b => bookingMatches b c.reference),
            propLabel b1 = propLabel b2) →
       (csvRowOutput db c).status = .DUPLICATE_DB_REFERENCE) ∧
    (∀ b, db.filter (fun b => bookingMatches b c.reference) = [b] →
       ((|cmpAmount b - c.net| > (0.01 : ℚ) →
           (csvRowOutput db c).status = .AMOUNT_MISMATCH) ∧
        ((csvRowOutput db c).status = .OK ↔ |cmpAmount b - c.net| ≤ (0.01 : ℚ)))) := by
  refine ⟨reconcile_take db rows, ?_, ?_, ?_, ?_⟩
  · intro h
    rw [csvRowOutput_of_empty h]
  · rintro ⟨b1, hb1, b2, hb2, hne⟩
    have hne2 : db.filter (fun b => bookingMatches b c.reference) ≠ [] := by
      intro he
      rw [he] at hb1
      exact absurd hb1 (List.not_mem_nil b1)
    rw [csvRowOutput_of_ne hne2]
    exact classify_multi ((one_lt_dedup_length_iff _).mpr
      ⟨propLabel b1, List.mem_map_of_mem _ hb1,
        propLabel b2, List.mem_map_of_mem _ hb2, hne⟩)
  · intro hlen hall
    have hne2 : db.filter (fun b => bookingMatches b c.reference) ≠ [] := by
      intro he
      rw [he] at hlen
      simp at hlen
    rw [csvRowOutput_of_ne hne2]
    refine classify_dup ?_ hlen
    have hle : ((db.filter (fun b => bookingMatches b c.reference)).map propLabel).dedup.length ≤ 1 := by
      apply dedup_length_le_one_of_all_eq
      intro x hx y hy
      rcases List.mem_map.mp hx with ⟨b1, hb1, rfl⟩
      rcases List.mem_map.mp hy with ⟨b2, hb2, rfl⟩
      exact hall b1 hb1 b2 hb2
    rw [matchedProps]
    omega
  · intro b hb
    have hne2 : db.filter (fun b => bookingMatches b c.reference) ≠ [] := by
      rw [hb]
      simp
    rw [csvRowOutput_of_ne hne2]
    simp only [hb, classify_singleton]
    constructor
    · intro hgt
      rw [if_pos hgt]
    · split_ifs with hgt
      · constructor
        · intro h
          exact absurd h (by simp)
        · intro hle
          exact absurd hgt (not_lt.mpr hle)
      · exact ⟨fun _ => not_lt.mp hgt, fun _ => rfl⟩

theorem reconcile_status_cases_witness :
    (exDb.filter (fun b => bookingMatches b exCsv.reference) = [exB1]) ∧
    (csvRowOutput exDb exCsv).status = Status.OK :=
  ⟨exMatched,
    ((reconcile_status_cases exDb exRows exCsv).2.2.2.2 exB1 exMatched).2.mpr
      (by norm_num [cmpAmount, exB1, exCsv])⟩

theorem containsChars_nil_pat (l : List Char) : containsChars l [] = true := by
  cases l <;> simp [containsChars, leadsChars]

/-- C4: a ledger row matches a stored booking iff the booking carries a
defined reservation reference containing the ledger reference as a
substring; an undefined reference matches nothing and an empty ledger
reference matches exactly the bookings with a defined reference. -/
theorem bookingMatches_iff (b : Booking) (ref : String) :
    (bookingMatches b ref = true ↔
      ∃ s, b.reservationId = some s ∧ ∃ pre post, s.data = pre ++ ref.data ++ post) ∧
    (b.reservationId = none → bookingMatches b ref = false) ∧
    (ref = "" → (bookingMatches b ref = true ↔ b.reservationId ≠ none)) := by
  refine ⟨?_, ?_, ?_⟩
  · cases hr : b.reservationId with
    | none => simp [bookingMatches, hr]
    | some s => simp [bookingMatches, hr, strIncludes, containsChars_iff]
  · intro h
    simp [bookingMatches, h]
  · intro h
    subst h
    cases hr : b.reservationId with
    | none => simp [bookingMatches, hr]
    | some s => simp [bookingMatches, hr, strIncludes, containsChars_nil_pat]

theorem bookingMatches_iff_witness :
    (bookingMatches exB1 "1001" = true) ∧ (bookingMatches exB1 "" = true) :=
  ⟨((bookingMatches_iff exB1 "1001").1).mpr
      ⟨"BDC-1001-A", rfl, "BDC-".data, "-A".data, by decide⟩,
    ((bookingMatches_iff exB1 "").2.2 rfl).mpr (by simp [exB1])⟩

/-- C10: a stored booking matched by at least one ledger row is never
emitted as MISSING_IN_CSV, and every ledger row matching it produces a row
whose dbRecords contain the booking and whose dbTotal is the sum of the
compared amounts over all its dbRecords, so one booking's amount can enter
several output rows.  The last conjunct places csvRowOutput as the
per-ledger-row output of the matcher. -/
theorem matched_booking_not_missing (db : List Booking) (rows : List CsvRow)
    (b : Booking) (hb : b ∈ db) :
    ((∃ c ∈ rows, bookingMatches b c.reference = true) →
       ∀ r ∈ reconcile db rows, r.status = .MISSING_IN_CSV → b ∉ r.dbRecords) ∧
    (∀ c ∈ rows, bookingMatches b c.reference = true →
       b ∈ (csvRowOutput db c).dbRecords ∧
       (csvRowOutput db c).dbTotal =
         some (((csvRowOutput db c).dbRecords.map cmpAmount).sum)) ∧
    (reconcile db rows).take rows.length = rows.map (csvRowOutput db) := by
  refine ⟨?_, ?_, reconcile_take db rows⟩
  · rintro ⟨c, hc, hm⟩ r hr hst hmem
    rw [reconcile_eq] at hr
    rcases List.mem_append.mp hr with h | h
    · rcases List.mem_map.mp h with ⟨c2, hc2, rfl⟩
      exact csvRowOutput_status_ne_missing_csv db c2 hst
    · rcases List.mem_map.mp h with ⟨b2, hb2, rfl⟩
      rcases List.mem_filter.mp hb2 with ⟨hb2db, hb2un⟩
      simp only [missingInCsvRow, List.mem_singleton] at hmem
      subst hmem
      have hbid : b.id ∈ usedIds db rows :=
        (usedIds_mem db rows b.id).mpr ⟨b, hb, rfl, c, hc, hm⟩
      have hcon : (usedIds db rows).contains b.id = true := List.elem_iff.mpr hbid
      rw [Bool.not_eq_true'] at hb2un
      rw [hcon] at hb2un
      cases hb2un
  · intro c hc hm
    have hbm : b ∈ db.filter (fun x => bookingMatches x c.reference) :=
      List.mem_filter.mpr ⟨hb, hm⟩
    have hne : db.filter (fun x => bookingMatches x c.reference) ≠ [] := by
      intro he
      rw [he] at hbm
      exact absurd hbm (List.not_mem_nil b)
    rw [csvRowOutput_of_ne hne]
    exact ⟨hbm, congrArg some (dbTotalOf_eq_sum _)⟩

theorem matched_booking_not_missing_witness :
    (exB1 ∈ exDb) ∧ (exCsv ∈ exRows) ∧ (bookingMatches exB1 exCsv.reference = true) ∧
    (exB1 ∈ (csvRowOutput exDb exCsv).dbRecords) :=
  ⟨by decide, by decide, by decide,
    ((matched_booking_not_missing exDb exRows exB1 (by decide)).2.1 exCsv
        (by decide) (by decide)).1⟩

theorem classify_eq_multi_iff (matched : List Booking) (net : ℚ) :
    classify matched net = .MULTI_PROPERTY_REFERENCE ↔
      1 < (matchedProps matched).length := by
  simp only [classify]
  split_ifs with h1 h2 h3 <;> simp [h1]

theorem matchedProps_ne_nil {matched : List Booking} (h : matched ≠ []) :
    matchedProps matched ≠ [] := by
  intro he
  have hmap : matched.map propLabel = [] := (List.dedup_eq_nil _).mp he
  exact h (List.map_eq_nil_iff.mp hmap)

def c5Booking : Booking :=
  { id := "x1", guestName := "Carol", reservationId := some "REF-9"
    propertyId := some { id := "p9", name := "Unmatched CSV" }, amount := 7
    expectedPayment := none, platform := "Booking.com" }

def c5Csv : CsvRow := { reference := "ZZZ", guest := "Dan", net := 5 }

/-- C5 counterexample: a stored booking whose real property is named
exactly "Unmatched CSV" shares its group with the sentinel rows: the
MISSING_IN_DB row of an unmatched ledger row lands in that real property's
group and its ledger net enters that group's csvTotal, so the sentinel
label is not distinct from every real property. -/
theorem grouping_sentinel_counterexample :
    propLabel c5Booking = "Unmatched CSV" ∧
    reconcile [c5Booking] [c5Csv] =
      [{ property := "Unmatched CSV", reference := "ZZZ", csvGuest := some "Dan"
         dbGuests := [], dbRecords := [], csvNet := some 5, dbTotal := none
         dbCount := 0, status := .MISSING_IN_DB },
       { property := "Unmatched CSV", reference := "REF-9", csvGuest := none
         dbGuests := ["Carol"], dbRecords := [c5Booking], csvNet := none
         dbTotal := some 7, dbCount := 1, status := .MISSING_IN_CSV }] ∧
    (groupFor (reconcile [c5Booking] [c5Csv]) (propLabel c5Booking)).csvTotal = 5 ∧
    (groupFor (reconcile [c5Booking] [c5Csv]) (propLabel c5Booking)).rows.length = 2 := by
  have hr : reconcile [c5Booking] [c5Csv] =
      [{ property := "Unmatched CSV", reference := "ZZZ", csvGuest := some "Dan"
         dbGuests := [], dbRecords := [], csvNet := some 5, dbTotal := none
         dbCount := 0, status := .MISSING_IN_DB },
       { property := "Unmatched CSV", reference := "REF-9", csvGuest := none
         dbGuests := ["Carol"], dbRecords := [c5Booking], csvNet := none
         dbTotal := some 7, dbCount := 1, status := .MISSING_IN_CSV }] := by
    decide
  refine ⟨rfl, hr, ?_, ?_⟩
  · rw [hr, show propLabel c5Booking = "Unmatched CSV" from rfl]
    norm_num [groupFor, groupStep, orZero]
  · rw [hr, show propLabel c5Booking = "Unmatched CSV" from rfl]
    norm_num [groupFor, groupStep, orZero]

/-- C5 amended: provided no stored booking's property label coincides with
one of the two sentinel labels, every MISSING_IN_DB row is grouped under
the sentinel "Unmatched CSV" label, every MULTI_PROPERTY_REFERENCE row
under the sentinel "⚠ Cross-Property Issue" label, no such row lands
under any real property label, and every other row carries the property
label of its matched stored booking(s). -/
theorem grouping_sentinel_amended (db : List Booking) (rows : List CsvRow)
    (hp : ∀ b ∈ db,
      propLabel b ≠ "Unmatched CSV" ∧ propLabel b ≠ "⚠ Cross-Property Issue") :
    (∀ r ∈ reconcile db rows,
       (r.status = .MISSING_IN_DB → r.property = "Unmatched CSV") ∧
       (r.status = .MULTI_PROPERTY_REFERENCE →
          r.property = "⚠ Cross-Property Issue") ∧
       (r.status ≠ .MISSING_IN_DB → r.status ≠ .MULTI_PROPERTY_REFERENCE →
          r.dbRecords ≠ [] ∧ ∀ b ∈ r.dbRecords, r.property = propLabel b)) ∧
    (∀ b ∈ db, ∀ r ∈ reconcile db rows, r.property = propLabel b →
       r.status ≠ .MISSING_IN_DB ∧ r.status ≠ .MULTI_PROPERTY_REFERENCE) := by
  have main : ∀ r ∈ reconcile db rows,
      (r.status = .MISSING_IN_DB → r.property = "Unmatched CSV") ∧
      (r.status = .MULTI_PROPERTY_REFERENCE →
         r.property = "⚠ Cross-Property Issue") ∧
      (r.status ≠ .MISSING_IN_DB → r.status ≠ .MULTI_PROPERTY_REFERENCE →
         r.dbRecords ≠ [] ∧ ∀ b ∈ r.dbRecords, r.property = propLabel b) := by
    intro r hr
    rw [reconcile_eq] at hr
    rcases List.mem_append.mp hr with h | h
    · rcases List.mem_map.mp h with ⟨c, hc, rfl⟩
      by_cases hm : db.filter (fun b => bookingMatches b c.reference) = []
      · rw [csvRowOutput_of_empty hm]
        exact ⟨fun _ => rfl, fun hst => Status.noConfusion hst,
          fun hmiss _ => absurd rfl hmiss⟩
      · rw [csvRowOutput_of_ne hm]
        refine ⟨?_, ?_, ?_⟩
        · intro hst
          exfalso
          revert hst
          show classify (db.filter (fun b => bookingMatches b c.reference)) c.net =
            .MISSING_IN_DB → False
          simp only [classify]
          split_ifs <;> simp
        · intro hst
          have hgt : 1 < (matchedProps
              (db.filter (fun b => bookingMatches b c.reference))).length :=
            (classify_eq_multi_iff _ _).mp hst
          have hne1 : ¬ (matchedProps
              (db.filter (fun b => bookingMatches b c.reference))).length = 1 := by
            omega
          show (if (matchedProps
              (db.filter (fun b => bookingMatches b c.reference))).length = 1
            then (matchedProps
              (db.filter (fun b => bookingMatches b c.reference))).headD ""
            else "⚠ Cross-Property Issue") = "⚠ Cross-Property Issue"
          rw [if_neg hne1]
        · intro hmiss hmulti
          have hle : (matchedProps
              (db.filter (fun b => bookingMatches b c.reference))).length ≤ 1 := by
            by_contra hgt
            exact hmulti ((classify_eq_multi_iff _ _).mpr (by omega))
          have hnn : matchedProps
              (db.filter (fun b => bookingMatches b c.reference)) ≠ [] :=
            matchedProps_ne_nil hm
          have hlen1 : (matchedProps
              (db.filter (fun b => bookingMatches b c.reference))).length = 1 := by
            have := List.length_pos.mpr hnn
            omega
          rcases List.length_eq_one.mp hlen1 with ⟨x, hx⟩
          refine ⟨hm, ?_⟩
          intro b hb
          have hbl : propLabel b ∈ matchedProps
              (db.filter (fun b => bookingMatches b c.reference)) :=
            List.mem_dedup.mpr (List.mem_map_of_mem _ hb)
          rw [hx] at hbl
          have hbx : propLabel b = x := List.mem_singleton.mp hbl
          show (if (matchedProps
              (db.filter (fun b => bookingMatches b c.reference))).length = 1
            then (matchedProps
              (db.filter (fun b => bookingMatches b c.reference))).headD ""
            else "⚠ Cross-Property Issue") = propLabel b
          rw [if_pos hlen1, hx, hbx]
          rfl
    · rcases List.mem_map.mp h with ⟨b2, hb2, rfl⟩
      refine ⟨fun hst => Status.noConfusion hst, fun hst => Status.noConfusion hst, ?_⟩
      intro _ _
      refine ⟨by simp [missingInCsvRow], ?_⟩
      intro b hb
      have hbb : b = b2 := by
        simpa [missingInCsvRow] using hb
      rw [hbb]
      rfl
  refine ⟨main, ?_⟩
  intro b hb r hr hprop
  constructor
  · intro hst
    exact absurd (hprop.symm.trans ((main r hr).1 hst)) (hp b hb).1
  · intro hst
    exact absurd (hprop.symm.trans ((main r hr).2.1 hst)) (hp b hb).2

theorem grouping_sentinel_amended_witness :
    (∀ b ∈ exDb,
      propLabel b ≠ "Unmatched CSV" ∧ propLabel b ≠ "⚠ Cross-Property Issue") ∧
    ((csvRowOutput exDb exCsv).status ≠ .MISSING_IN_DB →
      (csvRowOutput exDb exCsv).status ≠ .MULTI_PROPERTY_REFERENCE →
      (csvRowOutput exDb exCsv).dbRecords ≠ [] ∧
        ∀ b ∈ (csvRowOutput exDb exCsv).dbRecords,
          (csvRowOutput exDb exCsv).property = propLabel b) :=
  ⟨by decide, ((grouping_sentinel_amended exDb exRows (by decide)).1 _ exMem).2.2⟩

/- ======================================================
   Income aggregator lemmas
====================================================== -/

/-- Sum of the amounts of the records picked by a selector. -/
def sumAmounts (records : List IncomeRecord) (sel : IncomeRecord → Bool) : ℚ :=
  ((records.filter sel).map (fun b => b.amount)).sum

theorem sumAmounts_cons (r : IncomeRecord) (rest : List IncomeRecord)
    (sel : IncomeRecord → Bool) :
    sumAmounts (r :: rest) sel =
      (if sel r then r.amount else 0) + sumAmounts rest sel := by
  simp only [sumAmounts, List.filter_cons]
  split <;> simp

theorem foldl_addRecord (records : List IncomeRecord) :
    ∀ t : Totals, records.foldl addRecord t =
      { booking := t.booking + sumAmounts records (fun b => b.platform == "Booking.com")
        agoda := t.agoda + sumAmounts records (fun b => b.platform == "Agoda")
        airbnb := t.airbnb + sumAmounts records (fun b => b.platform == "Airbnb")
        expedia := t.expedia + sumAmounts records (fun b => b.platform == "Expedia")
        directBank := t.directBank + sumAmounts records
          (fun b => b.platform == "Direct" && b.paymentMethod == "bank")
        directCash := t.directCash + sumAmounts records
          (fun b => b.platform == "Direct" && b.paymentMethod == "cash")
        netTotal := t.netTotal + sumAmounts records (fun _ => true) } := by
  induction records with
  | nil => intro t; simp [sumAmounts]
  | cons r rest ih =>
    intro t
    rw [List.foldl_cons, ih]
    simp only [addRecord]
    split_ifs with h1 h2 h3 h4 h5 h6 h7 <;>
      simp_all [sumAmounts_cons, Totals.mk.injEq, add_assoc]

theorem sumAmounts_partition (records : List IncomeRecord)
    (h : ∀ b ∈ records,
      (b.platform = "Booking.com" ∨ b.platform = "Agoda" ∨ b.platform = "Airbnb" ∨
       b.platform = "Expedia" ∨ b.platform = "Direct") ∧
      (b.platform = "Direct" → b.paymentMethod = "bank" ∨ b.paymentMethod = "cash")) :
    sumAmounts records (fun b => b.platform == "Booking.com") +
      sumAmounts records (fun b => b.platform == "Agoda") +
      sumAmounts records (fun b => b.platform == "Airbnb") +
      sumAmounts records (fun b => b.platform == "Expedia") +
      sumAmounts records (fun b => b.platform == "Direct" && b.paymentMethod == "bank") +
      sumAmounts records (fun b => b.platform == "Direct" && b.paymentMethod == "cash") =
      sumAmounts records (fun _ => true) := by
  induction records with
  | nil => simp [sumAmounts]
  | cons r rest ih =>
    have hr := h r (List.mem_cons_self r rest)
    have hrest := fun b hb => h b (List.mem_cons_of_mem r hb)
    have ih2 := ih hrest
    simp only [sumAmounts_cons]
    rcases hr.1 with h1 | h1 | h1 | h1 | h1
    · simp [h1,
        show (("Booking.com" == "Booking.com") : Bool) = true from by decide,
        show (("Booking.com" == "Agoda") : Bool) = false from by decide,
        show (("Booking.com" == "Airbnb") : Bool) = false from by decide,
        show (("Booking.com" == "Expedia") : Bool) = false from by decide,
        show (("Booking.com" == "Direct") : Bool) = false from by decide]
      linarith [ih2]
    · simp [h1,
        show (("Agoda" == "Booking.com") : Bool) = false from by decide,
        show (("Agoda" == "Agoda") : Bool) = true from by decide,
        show (("Agoda" == "Airbnb") : Bool) = false from by decide,
        show (("Agoda" == "Expedia") : Bool) = false from by decide,
        show (("Agoda" == "Direct") : Bool) = false from by decide]
      linarith [ih2]
    · simp [h1,
        show (("Airbnb" == "Booking.com") : Bool) = false from by decide,
        show (("Airbnb" == "Agoda") : Bool) = false from by decide,
        show (("Airbnb" == "Airbnb") : Bool) = true from by decide,
        show (("Airbnb" == "Expedia") : Bool) = false from by decide,
        show (("Airbnb" == "Direct") : Bool) = false from by decide]
      linarith [ih2]
    · simp [h1,
        show (("Expedia" == "Booking.com") : Bool) = false from by decide,
        show (("Expedia" == "Agoda") : Bool) = false from by decide,
        show (("Expedia" == "Airbnb") : Bool) = false from by decide,
        show (("Expedia" == "Expedia") : Bool) = true from by decide,
        show (("Expedia" == "Direct") : Bool) = false from by decide]
      linarith [ih2]
    · rcases hr.2 h1 with h2 | h2
      · simp [h1, h2,
          show (("Direct" == "Booking.com") : Bool) = false from by decide,
          show (("Direct" == "Agoda") : Bool) = false from by decide,
          show (("Direct" == "Airbnb") : Bool) = false from by decide,
          show (("Direct" == "Expedia") : Bool) = false from by decide,
          show (("Direct" == "Direct") : Bool) = true from by decide,
          show (("bank" == "bank") : Bool) = true from by decide,
          show (("bank" == "cash") : Bool) = false from by decide]
        linarith [ih2]
      · simp [h1, h2,
          show (("Direct" == "Booking.com") : Bool) = false from by decide,
          show (("Direct" == "Agoda") : Bool) = false from by decide,
          show (("Direct" == "Airbnb") : Bool) = false from by decide,
          show (("Direct" == "Expedia") : Bool) = false from by decide,
          show (("Direct" == "Direct") : Bool) = true from by decide,
          show (("cash" == "bank") : Bool) = false from by decide,
          show (("cash" == "cash") : Bool) = true from by decide]
        linarith [ih2]

def c7Record : IncomeRecord :=
  { platform := "Direct", paymentMethod := "card", amount := 10 }

/-- C7 counterexample: a Direct record paid by card enters netTotal but no
platform bucket, so the bucket totals do not attribute every record's
amount to exactly one bucket. -/
theorem income_buckets_counterexample :
    (computeTotals [c7Record]).netTotal = 10 ∧
    (computeTotals [c7Record]).booking = 0 ∧
    (computeTotals [c7Record]).agoda = 0 ∧
    (computeTotals [c7Record]).airbnb = 0 ∧
    (computeTotals [c7Record]).expedia = 0 ∧
    (computeTotals [c7Record]).directBank = 0 ∧
    (computeTotals [c7Record]).directCash = 0 ∧
    (computeTotals [c7Record]).booking + (computeTotals [c7Record]).agoda +
        (computeTotals [c7Record]).airbnb + (computeTotals [c7Record]).expedia +
        (computeTotals [c7Record]).directBank + (computeTotals [c7Record]).directCash ≠
      (computeTotals [c7Record]).netTotal := by
  have h : computeTotals [c7Record] =
      { booking := 0, agoda := 0, airbnb := 0, expedia := 0, directBank := 0
        directCash := 0, netTotal := 0 + 10 } := rfl
  rw [h]
  norm_num

/-- C7 amended: each platform bucket is the sum of amounts over exactly
the records of that platform (Direct split into bank and cash) and
netTotal sums every record; when every record carries a declared platform
and every Direct record is paid by bank or cash, the six buckets partition
netTotal, while Direct records with another payment method enter only
netTotal. -/
theorem income_totals_amended (records : List IncomeRecord) :
    (computeTotals records).booking =
      sumAmounts records (fun b => b.platform == "Booking.com") ∧
    (computeTotals records).agoda =
      sumAmounts records (fun b => b.platform == "Agoda") ∧
    (computeTotals records).airbnb =
      sumAmounts records (fun b => b.platform == "Airbnb") ∧
    (computeTotals records).expedia =
      sumAmounts records (fun b => b.platform == "Expedia") ∧
    (computeTotals records).directBank =
      sumAmounts records (fun b => b.platform == "Direct" && b.paymentMethod == "bank") ∧
    (computeTotals records).directCash =
      sumAmounts records (fun b => b.platform == "Direct" && b.paymentMethod == "cash") ∧
    (computeTotals records).netTotal = sumAmounts records (fun _ => true) ∧
    ((∀ b ∈ records,
        (b.platform = "Booking.com" ∨ b.platform = "Agoda" ∨ b.platform = "Airbnb" ∨
         b.platform = "Expedia" ∨ b.platform = "Direct") ∧
        (b.platform = "Direct" → b.paymentMethod = "bank" ∨ b.paymentMethod = "cash")) →
      (computeTotals records).booking + (computeTotals records).agoda +
          (computeTotals records).airbnb + (computeTotals records).expedia +
          (computeTotals records).directBank + (computeTotals records).directCash =
        (computeTotals records).netTotal) := by
  have h2 : computeTotals records =
      { booking := sumAmounts records (fun b => b.platform == "Booking.com")
        agoda := sumAmounts records (fun b => b.platform == "Agoda")
        airbnb := sumAmounts records (fun b => b.platform == "Airbnb")
        expedia := sumAmounts records (fun b => b.platform == "Expedia")
        directBank := sumAmounts records
          (fun b => b.platform == "Direct" && b.paymentMethod == "bank")
        directCash := sumAmounts records
          (fun b => b.platform == "Direct" && b.paymentMethod == "cash")
        netTotal := sumAmounts records (fun _ => true) } := by
    unfold computeTotals
    rw [foldl_addRecord records zeroTotals]
    simp [zeroTotals]
  refine ⟨?_, ?_, ?_, ?_, ?_, ?_, ?_, ?_⟩
  · rw [h2]
  · rw [h2]
  · rw [h2]
  · rw [h2]
  · rw [h2]
  · rw [h2]
  · rw [h2]
  · intro hx
    rw [h2]
    exact sumAmounts_partition records hx

def exIncome : List IncomeRecord :=
  [{ platform := "Booking.com", paymentMethod := "online", amount := 20 }]

theorem income_totals_amended_witness :
    (∀ b ∈ exIncome,
        (b.platform = "Booking.com" ∨ b.platform = "Agoda" ∨ b.platform = "Airbnb" ∨
         b.platform = "Expedia" ∨ b.platform = "Direct") ∧
        (b.platform = "Direct" → b.paymentMethod = "bank" ∨ b.paymentMethod = "cash")) ∧
    ((computeTotals exIncome).booking + (computeTotals exIncome).agoda +
        (computeTotals exIncome).airbnb + (computeTotals exIncome).expedia +
        (computeTotals exIncome).directBank + (computeTotals exIncome).directCash =
      (computeTotals exIncome).netTotal) :=
  ⟨by decide, (income_totals_amended exIncome).2.2.2.2.2.2.2 (by decide)⟩

/-- C8: create-booking resolves a missing or empty reservation reference
to the auto-generated one; when an active (non-cancelled) record with the
resolved reference exists it answers HTTP 409 and stores nothing new;
otherwise it appends exactly one new record carrying the resolved
reference, with status defaulting to booked when none is supplied. -/
theorem createBooking_spec (db : List StoredRecord) (data : BookingInput)
    (autoRef : String) :
    ((data.reservationId = none ∨ data.reservationId = some "") →
       resolveReservationId data.reservationId autoRef = autoRef) ∧
    ((∃ b ∈ db, b.reservationId = resolveReservationId data.reservationId autoRef ∧
        b.status ≠ "cancel") →
      (createBooking db data autoRef).1 = .conflict ∧
      postHttpStatus (createBooking db data autoRef).1 = 409 ∧
      (createBooking db data autoRef).2 = db) ∧
    (¬ (∃ b ∈ db, b.reservationId = resolveReservationId data.reservationId autoRef ∧
        b.status ≠ "cancel") →
      ∃ nb, (createBooking db data autoRef).1 = .created nb ∧
        (createBooking db data autoRef).2 = db ++ [nb] ∧
        nb.reservationId = resolveReservationId data.reservationId autoRef ∧
        ((data.status = none ∨ data.status = some "") → nb.status = "booked")) := by
  have hdup : hasActiveDuplicate db (resolveReservationId data.reservationId autoRef)
      = true ↔
      ∃ b ∈ db, b.reservationId = resolveReservationId data.reservationId autoRef ∧
        b.status ≠ "cancel" := by
    simp [hasActiveDuplicate, List.any_eq_true]
  refine ⟨?_, ?_, ?_⟩
  · rintro (h | h) <;> simp [resolveReservationId, h]
  · intro hex
    have hd : hasActiveDuplicate db
        (resolveReservationId data.reservationId autoRef) = true := hdup.mpr hex
    simp [createBooking, hd, postHttpStatus]
  · intro hex
    have hd : hasActiveDuplicate db
        (resolveReservationId data.reservationId autoRef) = false :=
      Bool.not_eq_true _ ▸ (fun h => hex (hdup.mp h))
    refine ⟨{ guestName := data.guestName
              reservationId := resolveReservationId data.reservationId autoRef
              roomId := data.roomId
              platform := data.platform
              paymentMethod := data.paymentMethod
              amount := data.amount
              status := match data.status with
                | some s => if s = "" then "booked" else s
                | none => "booked" }, ?_, ?_, rfl, ?_⟩
    · simp [createBooking, hd]
    · simp [createBooking, hd]
    · rintro (h | h) <;> simp [h]

def exInput : BookingInput :=
  { guestName := "Eve", reservationId := none, roomId := none, platform := "Direct"
    paymentMethod := "cash", amount := 50, status := none }

theorem createBooking_spec_witness :
    resolveReservationId exInput.reservationId "AUTO-1" = "AUTO-1" ∧
    ¬ (∃ b ∈ ([] : List StoredRecord),
        b.reservationId = resolveReservationId exInput.reservationId "AUTO-1" ∧
        b.status ≠ "cancel") ∧
    (∃ nb, (createBooking [] exInput "AUTO-1").1 = .created nb ∧
        (createBooking [] exInput "AUTO-1").2 = [] ++ [nb] ∧
        nb.reservationId = resolveReservationId exInput.reservationId "AUTO-1" ∧
        ((exInput.status = none ∨ exInput.status = some "") → nb.status = "booked")) :=
  ⟨(createBooking_spec [] exInput "AUTO-1").1 (Or.inl rfl), by simp,
    (createBooking_spec [] exInput "AUTO-1").2.2 (by simp)⟩

/-- C9: the schema declares the status enumeration booked, checkin,
checkout, cancel, while the checkin and checkout update actions write
checked_in and checked_out, values outside that enumeration, so the
updates do not preserve membership of the stored status in the declared
enumeration. -/
theorem patch_status_outside_enum (b : StoredRecord) (roomId : Option String) :
    ∃ b1 b2 : StoredRecord,
      patchBooking b "checkin" roomId = some b1 ∧
      patchBooking b "checkout" roomId = some b2 ∧
      b1.status = "checked_in" ∧ b2.status = "checked_out" ∧
      b1.status ∉ bookingStatusEnum ∧ b2.status ∉ bookingStatusEnum := by
  refine ⟨{ b with status := "checked_in" }, { b with status := "checked_out" },
    rfl, rfl, rfl, rfl, ?_, ?_⟩
  · exact (by decide : "checked_in" ∉ bookingStatusEnum)
  · exact (by decide : "checked_out" ∉ bookingStatusEnum)
